import Mathlib

/-!
Verification of the WhatsApp event planner core
(`src/mcp-bearer-token/mcp_starter.py`).

Shallow embedding conventions:
* Python strings are `List Char` (named `Str` below).
* Python dicts (the global `events` map and each event's `rsvps` map) are
  association lists with Python-dict update semantics: updating an existing
  key replaces its value in place, a fresh key is appended at the end.
* The external `dateutil` / `datetime` library is modelled with timestamps
  abstracted as natural numbers (minutes): `dateparse` models
  `dateutil.parser.parse` as a partial parser (it fails on non-numeric
  strings), `isoformat` models `datetime.isoformat` as an injective
  rendering satisfying `dateparse (isoformat t) = some t`, mirroring the
  real round-trip guarantee of those libraries.
* Raised `McpError`s become `Except McpErr`; tool functions that mutate the
  global `events` dict take and return the store explicitly.
-/

namespace EventPlanner

/-- Python strings, embedded as lists of characters. -/
abbrev Str := List Char

/-- Characters removed by Python's `str.strip()` (ASCII whitespace). -/
def pyWs (c : Char) : Bool :=
  c = ' ' || c = '\t' || c = '\n' || c = '\r' || c = '\x0b' || c = '\x0c'

/-- Python `str.strip()`: drop whitespace from both ends. -/
def pyStrip (s : Str) : Str :=
  ((s.dropWhile pyWs).reverse.dropWhile pyWs).reverse

/-- Python `str.upper()` (ASCII). -/
def pyUpper (s : Str) : Str := s.map Char.toUpper

/-- The transport-scheme marker `"whatsapp:"`. -/
def schemeMarker : Str := "whatsapp:".data

/-- `normalize_phone` from `mcp_starter.py` (lines 113-119):
strip, return unchanged if already scheme-prefixed, prefix the scheme
if the string starts with `+`, otherwise return the stripped string. -/
def normalize_phone (phone : Str) : Str :=
  let p := pyStrip phone
  if schemeMarker.isPrefixOf p then p
  else if ['+'].isPrefixOf p then schemeMarker ++ p
  else p

/- ### Lemmas about `pyStrip` -/

theorem dropWhile_pyWs_idem (l : Str) :
    (l.dropWhile pyWs).dropWhile pyWs = l.dropWhile pyWs := by
  induction l with
  | nil => rfl
  | cons a l ih =>
      by_cases h : pyWs a
      · simp [List.dropWhile_cons, h, ih]
      · simp [List.dropWhile_cons, h]

theorem head_dropWhile_not_pyWs (l : Str) (a : Char) (t : Str)
    (h : l.dropWhile pyWs = a :: t) : pyWs a = false := by
  induction l with
  | nil => simp at h
  | cons b l ih =>
      by_cases hb : pyWs b
      · rw [List.dropWhile_cons_of_pos hb] at h
        exact ih h
      · rw [List.dropWhile_cons_of_neg hb] at h
        obtain ⟨rfl, -⟩ := List.cons.inj h
        exact Bool.not_eq_true _ ▸ hb

theorem dropWhile_eq_self_of_head (a : Char) (t : Str) (h : pyWs a = false) :
    (a :: t).dropWhile pyWs = a :: t := by
  simp [List.dropWhile_cons, h]

/-- A stripped string starts with a non-whitespace character (if nonempty). -/
theorem pyStrip_head (s : Str) (a : Char) (t : Str)
    (h : pyStrip s = a :: t) : pyWs a = false := by
  unfold pyStrip at h
  -- the head of the reversed result is the head of `dropWhile pyWs s`
  -- modulo the right-trim, which only removes a suffix
  set A := s.dropWhile pyWs with hA
  have hpre : (A.reverse.dropWhile pyWs).reverse.isPrefixOf A := by
    have : (A.reverse.dropWhile pyWs) <:+ A.reverse := List.dropWhile_suffix pyWs
    have h2 : (A.reverse.dropWhile pyWs).reverse <+: A.reverse.reverse :=
      List.reverse_prefix.mpr (by simpa using this)
    rw [List.reverse_reverse] at h2
    exact List.isPrefixOf_iff_prefix.mpr h2
  rw [h] at hpre
  have hpre' : (a :: t) <+: A := List.isPrefixOf_iff_prefix.mp hpre
  obtain ⟨r, hr⟩ := hpre'
  exact head_dropWhile_not_pyWs s a (t ++ r) (by rw [← hA, ← hr]; simp)

/-- A stripped string ends with a non-whitespace character (if nonempty). -/
theorem pyStrip_last (s : Str) (a : Char) (t : Str)
    (h : (pyStrip s).reverse = a :: t) : pyWs a = false := by
  unfold pyStrip at h
  rw [List.reverse_reverse] at h
  exact head_dropWhile_not_pyWs (s.dropWhile pyWs).reverse a t h

/-- A string whose first and last characters are non-whitespace is a
`pyStrip` fixpoint. -/
theorem pyStrip_eq_self (s : Str)
    (h1 : ∀ a t, s = a :: t → pyWs a = false)
    (h2 : ∀ a t, s.reverse = a :: t → pyWs a = false) :
    pyStrip s = s := by
  have hfwd : s.dropWhile pyWs = s := by
    cases hs : s with
    | nil => simp
    | cons a t => exact dropWhile_eq_self_of_head a t (h1 a t hs)
  have hbwd : s.reverse.dropWhile pyWs = s.reverse := by
    cases hs : s.reverse with
    | nil => simp [hs]
    | cons a t => exact dropWhile_eq_self_of_head a t (h2 a t hs)
  unfold pyStrip
  rw [hfwd, hbwd, List.reverse_reverse]

/-- `pyStrip` is idempotent. -/
theorem pyStrip_idem (s : Str) : pyStrip (pyStrip s) = pyStrip s := by
  apply pyStrip_eq_self
  · intro a t h; exact pyStrip_head s a t h
  · intro a t h; exact pyStrip_last s a t h

/- ### Lemmas about `normalize_phone` -/

theorem pyStrip_of_marker_append (p : Str) (b : Char) (t : Str)
    (hrev : p.reverse = b :: t) (hb : pyWs b = false) :
    pyStrip (schemeMarker ++ p) = schemeMarker ++ p := by
  apply pyStrip_eq_self
  · intro a u h
    have h' : 'w' = a ∧ "hatsapp:".data ++ p = u := by
      simpa [schemeMarker] using h
    rw [← h'.1]; decide
  · intro a u h
    rw [List.reverse_append, hrev] at h
    obtain ⟨rfl, -⟩ := List.cons.inj h.symm
    exact hb

theorem normalize_phone_eq (x : Str) :
    normalize_phone x =
      (if schemeMarker.isPrefixOf (pyStrip x) then pyStrip x
       else if ['+'].isPrefixOf (pyStrip x) then schemeMarker ++ pyStrip x
       else pyStrip x) := rfl

theorem pyStrip_normalize_phone (x : Str) :
    pyStrip (normalize_phone x) = normalize_phone x := by
  rw [normalize_phone_eq]
  by_cases h1 : schemeMarker.isPrefixOf (pyStrip x)
  · rw [if_pos h1]; exact pyStrip_idem x
  · rw [if_neg h1]
    by_cases h2 : ['+'].isPrefixOf (pyStrip x)
    · rw [if_pos h2]
      have hp : ∃ t, pyStrip x = '+' :: t := by
        obtain ⟨r, hr⟩ := List.isPrefixOf_iff_prefix.mp h2
        exact ⟨r, hr.symm⟩
      obtain ⟨t, ht⟩ := hp
      have hne : (pyStrip x).reverse ≠ [] := by
        rw [ht]; simp
      obtain ⟨b, t', hbt⟩ := List.exists_cons_of_ne_nil hne
      exact pyStrip_of_marker_append (pyStrip x) b t' hbt
        (pyStrip_last x b t' hbt)
    · rw [if_neg h2]; exact pyStrip_idem x

/-- C8: the contact normalization is total (it is a plain Lean function on
all of `Str`, with no failure case) and idempotent:
`normalize_phone (normalize_phone x) = normalize_phone x` for every
input string `x`. -/
theorem normalize_phone_idem (x : Str) :
    normalize_phone (normalize_phone x) = normalize_phone x := by
  have hstrip := pyStrip_normalize_phone x
  rw [normalize_phone_eq (normalize_phone x), hstrip]
  rw [normalize_phone_eq x]
  by_cases h1 : schemeMarker.isPrefixOf (pyStrip x)
  · rw [if_pos h1, if_pos h1]
  · rw [if_neg h1]
    by_cases h2 : ['+'].isPrefixOf (pyStrip x)
    · rw [if_pos h2]
      have hm : schemeMarker.isPrefixOf (schemeMarker ++ pyStrip x) := by
        exact List.isPrefixOf_iff_prefix.mpr (List.prefix_append _ _)
      rw [if_pos hm]
    · rw [if_neg h2, if_neg h1, if_neg h2]

/-- C9 (counterexample): the claim says inputs that are neither
scheme-prefixed nor `+`-prefixed are returned unchanged, but
`normalize_phone` strips surrounding whitespace first: on `"x "` it
returns `"x"`. -/
theorem normalize_phone_claim_cex :
    schemeMarker.isPrefixOf "x ".data = false ∧
    ['+'].isPrefixOf "x ".data = false ∧
    normalize_phone "x ".data ≠ "x ".data := by decide

/-- C9 (amended): after stripping surrounding whitespace, `normalize_phone`
returns scheme-prefixed input unchanged, prefixes the scheme marker when the
stripped input starts with `+`, and otherwise returns the stripped input
unchanged. -/
theorem normalize_phone_cases (x : Str) :
    (schemeMarker.isPrefixOf (pyStrip x) = true →
        normalize_phone x = pyStrip x) ∧
    (schemeMarker.isPrefixOf (pyStrip x) = false →
      ['+'].isPrefixOf (pyStrip x) = true →
        normalize_phone x = schemeMarker ++ pyStrip x) ∧
    (schemeMarker.isPrefixOf (pyStrip x) = false →
      ['+'].isPrefixOf (pyStrip x) = false →
        normalize_phone x = pyStrip x) := by
  refine ⟨?_, ?_, ?_⟩
  · intro h1; rw [normalize_phone_eq, if_pos h1]
  · intro h1 h2
    rw [normalize_phone_eq, if_neg (by simp [h1]), if_pos h2]
  · intro h1 h2
    rw [normalize_phone_eq, if_neg (by simp [h1]), if_neg (by simp [h2])]

/-- Witness for `normalize_phone_cases` at concrete inputs. -/
theorem normalize_phone_cases_witness :
    normalize_phone "whatsapp:+155512".data = "whatsapp:+155512".data ∧
    normalize_phone " +155512 ".data = "whatsapp:+155512".data ∧
    normalize_phone "155512".data = "155512".data := by
  refine ⟨?_, ?_, ?_⟩
  · exact ((normalize_phone_cases "whatsapp:+155512".data).1
      (by decide)).trans (by decide)
  · exact ((normalize_phone_cases " +155512 ".data).2.1
      (by decide) (by decide)).trans (by decide)
  · exact ((normalize_phone_cases "155512".data).2.2
      (by decide) (by decide)).trans (by decide)

/- ### Model of the external datetime library

Timestamps are abstracted as natural numbers (minutes). `dateparse` models
`dateutil.parser.parse`: a partial parser that fails (raises, in Python) on
strings that do not denote a point in time; here it accepts exactly the
nonempty all-digit strings. `isoformat` models `datetime.isoformat`: an
injective rendering that `dateparse` always re-parses, mirroring the real
round-trip guarantee `parse(dt.isoformat()) == dt` of those libraries. -/

def digitChar10 : Nat → Char
  | 0 => '0' | 1 => '1' | 2 => '2' | 3 => '3' | 4 => '4'
  | 5 => '5' | 6 => '6' | 7 => '7' | 8 => '8' | _ => '9'

def charVal (c : Char) : Nat := c.toNat - 48

def isoformat (t : Nat) : Str :=
  if t = 0 then ['0'] else ((Nat.digits 10 t).map digitChar10).reverse

def dateparse (s : Str) : Option Nat :=
  if s.isEmpty then none
  else if s.all Char.isDigit then
    some (Nat.ofDigits 10 ((s.map charVal).reverse))
  else none

theorem digitChar10_isDigit (d : Nat) (h : d < 10) :
    (digitChar10 d).isDigit = true := by
  interval_cases d <;> decide

theorem charVal_digitChar10 (d : Nat) (h : d < 10) :
    charVal (digitChar10 d) = d := by
  interval_cases d <;> decide

/-- The modelled datetime library round-trip: rendering a timestamp with
`isoformat` and re-parsing it with `dateparse` recovers the timestamp. -/
theorem dateparse_isoformat (t : Nat) : dateparse (isoformat t) = some t := by
  by_cases h0 : t = 0
  · subst h0; decide
  · have hne : Nat.digits 10 t ≠ [] := Nat.digits_ne_nil_iff_ne_zero.mpr h0
    have hlt : ∀ d ∈ Nat.digits 10 t, d < 10 := fun d hd =>
      Nat.digits_lt_base (by norm_num) hd
    unfold isoformat dateparse
    rw [if_neg h0]
    have hempty : (((Nat.digits 10 t).map digitChar10).reverse).isEmpty = false := by
      simp [List.isEmpty_iff, hne]
    rw [hempty]
    have hall : (((Nat.digits 10 t).map digitChar10).reverse).all Char.isDigit = true := by
      rw [List.all_eq_true]
      intro c hc
      rw [List.mem_reverse, List.mem_map] at hc
      obtain ⟨d, hd, rfl⟩ := hc
      exact digitChar10_isDigit d (hlt d hd)
    rw [hall]
    simp only [Bool.false_eq_true, if_false, if_true]
    congr 1
    rw [List.map_reverse, List.map_map, List.reverse_reverse]
    have : (Nat.digits 10 t).map (charVal ∘ digitChar10) = Nat.digits 10 t :=
      calc (Nat.digits 10 t).map (charVal ∘ digitChar10)
          = (Nat.digits 10 t).map id :=
            List.map_congr_left (fun d hd => charVal_digitChar10 d (hlt d hd))
        _ = Nat.digits 10 t := List.map_id _
    rw [this, Nat.ofDigits_digits]

/- ### Python dicts as association lists

Updating an existing key replaces its value in place; a fresh key is
appended at the end — exactly Python's dict semantics. -/

def dictGet {α : Type} : List (Str × α) → Str → Option α
  | [], _ => none
  | (k', v) :: rest, k => if k' = k then some v else dictGet rest k

def dictSet {α : Type} : List (Str × α) → Str → α → List (Str × α)
  | [], k, v => [(k, v)]
  | (k', v') :: rest, k, v =>
      if k' = k then (k, v) :: rest else (k', v') :: dictSet rest k v

/-- Number of entries in an association list carrying key `k`. -/
def keyCount {α : Type} (l : List (Str × α)) (k : Str) : Nat :=
  (l.map Prod.fst).count k

theorem dictGet_set_self {α : Type} (l : List (Str × α)) (k : Str) (v : α) :
    dictGet (dictSet l k v) k = some v := by
  induction l with
  | nil => simp [dictSet, dictGet]
  | cons kv rest ih =>
      obtain ⟨k', v'⟩ := kv
      by_cases h : k' = k
      · simp [dictSet, h, dictGet]
      · simp [dictSet, h, dictGet, ih]

theorem keyCount_set {α : Type} (l : List (Str × α)) (k : Str) (v : α)
    (h : keyCount l k ≤ 1) : keyCount (dictSet l k v) k = 1 := by
  induction l with
  | nil => simp [dictSet, keyCount]
  | cons kv rest ih =>
      obtain ⟨k', v'⟩ := kv
      by_cases hk : k' = k
      · subst hk
        have h' : keyCount rest k' = 0 := by
          unfold keyCount at h ⊢
          simp only [List.map_cons, List.count_cons_self] at h
          omega
        unfold keyCount at h' ⊢
        simp [dictSet, List.count_cons_self, h']
      · unfold keyCount at h ⊢
        simp only [dictSet, if_neg hk, List.map_cons] at h ⊢
        rw [List.count_cons_of_ne (fun hkk => hk hkk.symm)] at h ⊢
        exact ih h

/- ### The data model -/

/-- One RSVP record: canonical-uppercase response plus the ISO timestamp of
when it was recorded (`{"response": ..., "time": ...}` in the source). -/
structure RsvpInfo where
  response : Str
  time : Str
deriving DecidableEq

/-- One event record, mirroring the dict built by `create_event`
(lines 188-197 of `mcp_starter.py`). -/
structure Event where
  id : Str
  title : Str
  datetime : Str
  location : Str
  description : Str
  creator : Str
  attendees : List Str
  rsvps : List (Str × RsvpInfo)
deriving DecidableEq

/-- The global `events` dict. -/
abbrev EventStore := List (Str × Event)

/-- Raised `McpError`s: code 400 (`ValidationError`) and 404 (`NotFound`). -/
inductive McpErr where
  | validation
  | notFound
deriving DecidableEq

/- ### The Notifier Gateway (`send_whatsapp_message`, lines 122-137)

The Twilio client call `_twilio_client.messages.create(...)` is modelled as
an oracle `Gateway`: given the normalized destination and the body it either
succeeds with a SID or raises (`TwilioResult.failure`). The source catches
every exception and converts it into a returned `{"status": "error"}` dict,
so `send_whatsapp_message` itself is total. -/

inductive TwilioResult where
  | success (sid : Str)
  | failure (err : Str)
deriving DecidableEq

/-- The external message-transport behaviour. -/
abbrev Gateway := Str → Str → TwilioResult

/-- The dict returned by `send_whatsapp_message`. -/
structure SendResult where
  status : Str
  info : Str
deriving DecidableEq

/-- `send_whatsapp_message` (lines 122-137). `configured` models
`_twilio_client and TWILIO_WHATSAPP_NUMBER` being set; `dest` is the
source's `to` argument (`to` is a reserved token in Lean). -/
def send_whatsapp_message (configured : Bool) (gw : Gateway)
    (dest body : Str) : SendResult :=
  let to_norm := normalize_phone dest
  if configured then
    match gw to_norm body with
    | .success sid => ⟨"sent".data, sid⟩
    | .failure e => ⟨"error".data, e⟩
  else ⟨"simulated".data, []⟩

/- ### MCP tools (the Event/RSVP service)

Each tool takes and returns the global `events` store explicitly; a raised
`McpError` becomes `Except.error`, and in that case the store component is
returned untouched, mirroring the fact that the exception is raised before
any mutation. The human-readable success strings returned by the mutating
tools are not modelled (no claim mentions them); they are replaced by `()`.
Invite/creator-notification sends are fire-and-forget in the source (their
results are discarded, exceptions swallowed) and own no event-domain state,
so they do not appear in the store transition. -/

/-- `create_event` (lines 174-213). `event_id` stands for the freshly
minted `uuid.uuid4()`. -/
def create_event (st : EventStore) (event_id creator title datetime_str
    location : Str) (description : Option Str)
    (attendees : Option (List Str)) : Except McpErr Unit × EventStore :=
  match dateparse datetime_str with
  | none => (.error .validation, st)
  | some dt =>
      let event : Event :=
        { id := event_id
          title := title
          datetime := isoformat dt
          location := location
          description := description.getD []
          creator := normalize_phone creator
          attendees := (attendees.getD []).map normalize_phone
          rsvps := [] }
      (.ok (), dictSet st event_id event)

/-- `datetime.strftime('%Y-%m-%d %H:%M')`, modelled as a rendering of the
abstract timestamp. -/
def strftimeModel (t : Nat) : Str := isoformat t

/-- One line of `list_events` output (line 224). -/
def eventLine (e : Event) (dt : Nat) (now : Nat) : Str :=
  e.id ++ ": ".data ++ e.title ++ " at ".data ++ strftimeModel dt ++
    (if now < dt then " (Upcoming)".data else " (Past)".data)

/-- The per-event loop of `list_events`; `none` models the uncaught
exception raised when a stored datetime no longer parses. -/
def listEventsLines : EventStore → Nat → Option (List Str)
  | [], _ => some []
  | (_, e) :: rest, now =>
      match dateparse e.datetime, listEventsLines rest now with
      | some dt, some ls => some (eventLine e dt now :: ls)
      | _, _ => none

/-- `list_events` (lines 216-225). -/
def list_events (st : EventStore) (now : Nat) : Option Str :=
  if st.isEmpty then some "No events found.".data
  else (listEventsLines st now).map (List.intercalate ['\n'])

/-- `record_rsvp` (lines 228-248). `now` is the clock read for the stored
RSVP timestamp. -/
def record_rsvp (st : EventStore) (event_id phone response : Str)
    (now : Nat) : Except McpErr Unit × EventStore :=
  let response_up := pyUpper (pyStrip response)
  if response_up = "YES".data ∨ response_up = "NO".data ∨
      response_up = "MAYBE".data then
    match dictGet st event_id with
    | none => (.error .notFound, st)
    | some ev =>
        let normalized_phone := normalize_phone phone
        let ev' := { ev with
          rsvps := dictSet ev.rsvps normalized_phone
            ⟨response_up, isoformat now⟩ }
        (.ok (), dictSet st event_id ev')
  else (.error .validation, st)

/-- The RSVP tally of `event_details` (lines 258-262): `(YES, NO, MAYBE)`
counts. -/
def rsvpCounts (rsvps : List (Str × RsvpInfo)) : Nat × Nat × Nat :=
  rsvps.foldl
    (fun acc kv =>
      let resp := pyUpper kv.2.response
      if resp = "YES".data then (acc.1 + 1, acc.2.1, acc.2.2)
      else if resp = "NO".data then (acc.1, acc.2.1 + 1, acc.2.2)
      else if resp = "MAYBE".data then (acc.1, acc.2.1, acc.2.2 + 1)
      else acc)
    (0, 0, 0)

/-- The summary text built by `event_details` (lines 264-274). -/
def detailsText (event_id : Str) (ev : Event) (dt : Nat) : Str :=
  let c := rsvpCounts ev.rsvps
  "Event ".data ++ event_id ++ ": ".data ++ ev.title ++
    "\nWhen: ".data ++ strftimeModel dt ++
    "\nWhere: ".data ++ ev.location ++
    "\nDescription: ".data ++ ev.description ++
    "\nCreated by: ".data ++ ev.creator ++
    "\n\nRSVP Summary:\nYES: ".data ++ isoformat c.1 ++
    "\nNO: ".data ++ isoformat c.2.1 ++
    "\nMAYBE: ".data ++ isoformat c.2.2 ++ ['\n']

/-- `event_details` (lines 251-275): a read-only query returning a
not-found message (not an error) on an unknown identifier; `none` models
the uncaught exception when a stored datetime no longer parses. -/
def event_details (st : EventStore) (event_id : Str) : Option Str :=
  match dictGet st event_id with
  | none => some ("Event ".data ++ event_id ++ " not found.".data)
  | some ev => (dateparse ev.datetime).map (detailsText event_id ev)

/-- `rsvp_list` (lines 278-292): a read-only query returning a not-found
message (not an error) on an unknown identifier. -/
def rsvp_list (st : EventStore) (event_id : Str) : Str :=
  match dictGet st event_id with
  | none => "Event ".data ++ event_id ++ " not found.".data
  | some ev =>
      if ev.rsvps.isEmpty then "No RSVPs yet.".data
      else
        List.intercalate ['\n']
          ("RSVP List:".data ::
            ev.rsvps.map fun kv =>
              kv.1 ++ ": ".data ++ kv.2.response ++ " (at ".data ++
                kv.2.time ++ [')'])

/- ### The Reminder Scheduler (`reminder_background_task`, lines 140-165)

One iteration of the `while True` loop is a *tick*. The scheduler's
observable state is the `reminders_sent` ledger plus the sequence of
`send_whatsapp_message` calls it makes; both are threaded explicitly.
A `calls` entry records the `(event_id, normalized_phone)` pair the
dispatch was for together with the `SendResult` the (discarded) call
returned. -/

structure TickState where
  ledger : List (Str × Str)
  calls : List ((Str × Str) × SendResult)
deriving DecidableEq

/-- The reminder body (lines 155-158). -/
def reminderMsg (title : Str) (dt : Nat) : Str :=
  "⏰ Reminder: Event *".data ++ title ++ "* starts at ".data ++
    strftimeModel dt ++ ". See you there!".data

/-- The body of the guest loop (lines 152-161): dispatch to a `YES` guest
not yet in the ledger, recording the pair in the ledger right after the
dispatch attempt, whatever its outcome. -/
def guestStep (cfg : Bool) (gw : Gateway) (event_id title : Str) (dt : Nat)
    (phone : Str) (info : RsvpInfo) (s : TickState) : TickState :=
  if pyUpper info.response = "YES".data then
    let np := normalize_phone phone
    if (event_id, np) ∈ s.ledger then s
    else
      let res := send_whatsapp_message cfg gw np (reminderMsg title dt)
      ⟨(event_id, np) :: s.ledger, s.calls ++ [((event_id, np), res)]⟩
  else s

/-- The inner guest loop (lines 151-161). -/
def processGuests (cfg : Bool) (gw : Gateway) (event_id title : Str)
    (dt : Nat) (rsvps : List (Str × RsvpInfo)) (s : TickState) : TickState :=
  rsvps.foldl
    (fun s kv => guestStep cfg gw event_id title dt kv.1 kv.2 s) s

/-- The per-event body of the tick (lines 147-163): parse the stored
datetime (a failure is caught and the event skipped), check the reminder
window `[now+55, now+65]`, then run the guest loop. -/
def processEvent (cfg : Bool) (gw : Gateway) (now : Nat)
    (kv : Str × Event) (s : TickState) : TickState :=
  match dateparse kv.2.datetime with
  | none => s
  | some dt =>
      if now + 55 ≤ dt ∧ dt ≤ now + 65 then
        processGuests cfg gw kv.1 kv.2.title dt kv.2.rsvps s
      else s

/-- One scheduler tick (lines 142-163) at clock value `now`. -/
def reminder_tick (cfg : Bool) (gw : Gateway) (st : EventStore)
    (now : Nat) (s : TickState) : TickState :=
  st.foldl (fun s kv => processEvent cfg gw now kv s) s

/-- A sequence of scheduler ticks over a fixed store, at the given
sequence of clock values. -/
def reminder_run (cfg : Bool) (gw : Gateway) (st : EventStore)
    (nows : List Nat) (s : TickState) : TickState :=
  nows.foldl (fun s n => reminder_tick cfg gw st n s) s

/-- The `(event, guest)` pairs a state has dispatched to, in order. -/
def pairsSent (s : TickState) : List (Str × Str) :=
  s.calls.map Prod.fst

/- ### Service-layer theorems -/

theorem record_rsvp_ok (st : EventStore) (eid phone resp : Str) (now : Nat)
    (ev : Event)
    (hresp : pyUpper (pyStrip resp) = "YES".data ∨
      pyUpper (pyStrip resp) = "NO".data ∨
      pyUpper (pyStrip resp) = "MAYBE".data)
    (hev : dictGet st eid = some ev) :
    record_rsvp st eid phone resp now =
      (.ok (), dictSet st eid { ev with
        rsvps := dictSet ev.rsvps (normalize_phone phone)
          ⟨pyUpper (pyStrip resp), isoformat now⟩ }) := by
  simp only [record_rsvp]
  rw [if_pos hresp, hev]

/-- C4: the RSVP mapping keeps at most one record per canonical contact,
and a later `record_rsvp` from the same contact overwrites the earlier one:
recording `YES`, then `MAYBE`, then `YES` again leaves exactly one entry
for that contact, with response `YES`. -/
theorem record_rsvp_overwrite (st : EventStore) (eid phone : Str)
    (ev : Event) (t1 t2 t3 : Nat)
    (hev : dictGet st eid = some ev)
    (huniq : keyCount ev.rsvps (normalize_phone phone) ≤ 1) :
    Option.map (fun e => keyCount e.rsvps (normalize_phone phone))
        (dictGet (record_rsvp (record_rsvp
          (record_rsvp st eid phone "YES".data t1).2
          eid phone "MAYBE".data t2).2
          eid phone "YES".data t3).2 eid) = some 1 ∧
    Option.map (fun e => dictGet e.rsvps (normalize_phone phone))
        (dictGet (record_rsvp (record_rsvp
          (record_rsvp st eid phone "YES".data t1).2
          eid phone "MAYBE".data t2).2
          eid phone "YES".data t3).2 eid) =
      some (some ⟨"YES".data, isoformat t3⟩) := by
  have hyes : pyUpper (pyStrip "YES".data) = "YES".data := by decide
  have hmaybe : pyUpper (pyStrip "MAYBE".data) = "MAYBE".data := by decide
  set c := normalize_phone phone with hc
  have s1 := record_rsvp_ok st eid phone "YES".data t1 ev
    (by rw [hyes]; left; rfl) hev
  rw [s1]
  set ev1 : Event := { ev with
    rsvps := dictSet ev.rsvps c ⟨pyUpper (pyStrip "YES".data), isoformat t1⟩ }
    with hev1def
  have hev1 : dictGet (dictSet st eid ev1) eid = some ev1 :=
    dictGet_set_self st eid ev1
  have huniq1 : keyCount ev1.rsvps c = 1 := keyCount_set ev.rsvps c _ huniq
  have s2 := record_rsvp_ok (dictSet st eid ev1) eid phone "MAYBE".data t2 ev1
    (by rw [hmaybe]; right; right; rfl) hev1
  rw [s2]
  set ev2 : Event := { ev1 with
    rsvps := dictSet ev1.rsvps c ⟨pyUpper (pyStrip "MAYBE".data), isoformat t2⟩ }
    with hev2def
  have hev2 : dictGet (dictSet (dictSet st eid ev1) eid ev2) eid = some ev2 :=
    dictGet_set_self _ eid ev2
  have huniq2 : keyCount ev2.rsvps c = 1 :=
    keyCount_set ev1.rsvps c _ (le_of_eq huniq1)
  have s3 := record_rsvp_ok (dictSet (dictSet st eid ev1) eid ev2) eid phone
    "YES".data t3 ev2 (by rw [hyes]; left; rfl) hev2
  rw [s3]
  set ev3 : Event := { ev2 with
    rsvps := dictSet ev2.rsvps c ⟨pyUpper (pyStrip "YES".data), isoformat t3⟩ }
    with hev3def
  have hev3 : dictGet (dictSet (dictSet (dictSet st eid ev1) eid ev2) eid ev3)
      eid = some ev3 := dictGet_set_self _ eid ev3
  rw [hev3]
  constructor
  · exact congrArg some (keyCount_set ev2.rsvps c _ (le_of_eq huniq2))
  · refine congrArg some ?_
    have := dictGet_set_self ev2.rsvps c
      (⟨pyUpper (pyStrip "YES".data), isoformat t3⟩ : RsvpInfo)
    rw [hyes] at this
    exact this

/-- Witness for `record_rsvp_overwrite` on a concrete one-event store. -/
theorem record_rsvp_overwrite_witness :
    Option.map (fun e => keyCount e.rsvps (normalize_phone "+1".data))
        (dictGet (record_rsvp (record_rsvp
          (record_rsvp [("e".data,
            ⟨"e".data, "T".data, isoformat 100, [], [], "whatsapp:+9".data,
              [], []⟩)] "e".data "+1".data "YES".data 1).2
          "e".data "+1".data "MAYBE".data 2).2
          "e".data "+1".data "YES".data 3).2 "e".data) = some 1 ∧
    Option.map (fun e => dictGet e.rsvps (normalize_phone "+1".data))
        (dictGet (record_rsvp (record_rsvp
          (record_rsvp [("e".data,
            ⟨"e".data, "T".data, isoformat 100, [], [], "whatsapp:+9".data,
              [], []⟩)] "e".data "+1".data "YES".data 1).2
          "e".data "+1".data "MAYBE".data 2).2
          "e".data "+1".data "YES".data 3).2 "e".data) =
      some (some ⟨"YES".data, isoformat 3⟩) :=
  record_rsvp_overwrite _ "e".data "+1".data _ 1 2 3 rfl (by decide)

/-- C5 (counterexample): `create_event` performs no title validation — with
an empty title and a parsable datetime it succeeds and stores the event. -/
theorem create_event_empty_title_cex :
    (create_event [] "e1".data "+1".data [] "5".data [] none none).1 =
      Except.ok () ∧
    Option.map Event.title
      (dictGet (create_event [] "e1".data "+1".data [] "5".data [] none
        none).2 "e1".data) = some [] := by
  constructor <;> rfl

/-- C5 (amended): `create_event` does not validate the title: whenever the
datetime parses, the call with an empty title succeeds and stores the event
(with empty title); a `ValidationError` arises only from an unparsable
datetime. -/
theorem create_event_accepts_empty_title (st : EventStore)
    (eid creator dtstr loc : Str) (desc : Option Str)
    (att : Option (List Str)) (dt : Nat) (h : dateparse dtstr = some dt) :
    (create_event st eid creator [] dtstr loc desc att).1 = .ok () ∧
    dictGet (create_event st eid creator [] dtstr loc desc att).2 eid =
      some { id := eid, title := [], datetime := isoformat dt,
             location := loc, description := desc.getD [],
             creator := normalize_phone creator,
             attendees := (att.getD []).map normalize_phone,
             rsvps := [] } := by
  unfold create_event
  rw [h]
  exact ⟨rfl, dictGet_set_self st eid _⟩

/-- Witness for `create_event_accepts_empty_title`. -/
theorem create_event_accepts_empty_title_witness :
    (create_event [] "e1".data "+1".data [] "72".data [] none none).1 =
      .ok () ∧
    dictGet (create_event [] "e1".data "+1".data [] "72".data [] none
        none).2 "e1".data =
      some { id := "e1".data, title := [], datetime := isoformat 72,
             location := [], description := (none : Option Str).getD [],
             creator := normalize_phone "+1".data,
             attendees := ((none : Option (List Str)).getD []).map
               normalize_phone,
             rsvps := [] } :=
  create_event_accepts_empty_title [] "e1".data "+1".data "72".data []
    none none 72 (by decide)

/-- C6: an unparsable datetime makes `create_event` fail with
`ValidationError`, the store is left unchanged, and a subsequent
`list_events` output is exactly what it was before the call. -/
theorem create_event_invalid_datetime (st : EventStore)
    (eid creator title dtstr loc : Str) (desc : Option Str)
    (att : Option (List Str)) (now : Nat) (h : dateparse dtstr = none) :
    create_event st eid creator title dtstr loc desc att =
      (.error .validation, st) ∧
    list_events (create_event st eid creator title dtstr loc desc att).2
      now = list_events st now := by
  have h1 : create_event st eid creator title dtstr loc desc att =
      (.error .validation, st) := by
    unfold create_event
    rw [h]
  exact ⟨h1, by rw [h1]⟩

/-- Witness for `create_event_invalid_datetime`. -/
theorem create_event_invalid_datetime_witness :
    create_event [] "e1".data "+1".data "T".data "not a date".data []
      none none = (.error .validation, []) ∧
    list_events (create_event [] "e1".data "+1".data "T".data
      "not a date".data [] none none).2 7 = list_events [] 7 :=
  create_event_invalid_datetime [] "e1".data "+1".data "T".data
    "not a date".data [] none none 7 (by decide)

/-- C7: on an unknown event identifier the mutating `record_rsvp` raises
`NotFound` (and `ValidationError` when the trimmed, uppercased response is
not `YES`/`NO`/`MAYBE`), while the read-only `event_details` and
`rsvp_list` return a not-found message as a normal result. -/
theorem unknown_event_asymmetry (st : EventStore) (eid phone resp : Str)
    (now : Nat) (hmiss : dictGet st eid = none) :
    ((pyUpper (pyStrip resp) = "YES".data ∨
        pyUpper (pyStrip resp) = "NO".data ∨
        pyUpper (pyStrip resp) = "MAYBE".data) →
      record_rsvp st eid phone resp now = (.error .notFound, st)) ∧
    (¬(pyUpper (pyStrip resp) = "YES".data ∨
        pyUpper (pyStrip resp) = "NO".data ∨
        pyUpper (pyStrip resp) = "MAYBE".data) →
      record_rsvp st eid phone resp now = (.error .validation, st)) ∧
    event_details st eid =
      some ("Event ".data ++ eid ++ " not found.".data) ∧
    rsvp_list st eid = "Event ".data ++ eid ++ " not found.".data := by
  refine ⟨?_, ?_, ?_, ?_⟩
  · intro hv
    simp only [record_rsvp]
    rw [if_pos hv, hmiss]
  · intro hv
    simp only [record_rsvp]
    rw [if_neg hv]
  · unfold event_details
    rw [hmiss]
  · unfold rsvp_list
    rw [hmiss]

/-- Witness for `unknown_event_asymmetry` on the empty store. -/
theorem unknown_event_asymmetry_witness :
    record_rsvp [] "x".data "p".data " yes ".data 0 =
      (.error .notFound, []) ∧
    record_rsvp [] "x".data "p".data "bogus".data 0 =
      (.error .validation, []) ∧
    event_details [] "x".data =
      some ("Event ".data ++ "x".data ++ " not found.".data) ∧
    rsvp_list [] "x".data =
      "Event ".data ++ "x".data ++ " not found.".data := by
  refine ⟨?_, ?_, ?_, ?_⟩
  · exact (unknown_event_asymmetry [] "x".data "p".data " yes ".data 0
      rfl).1 (by decide)
  · exact (unknown_event_asymmetry [] "x".data "p".data "bogus".data 0
      rfl).2.1 (by decide)
  · exact (unknown_event_asymmetry [] "x".data "p".data " yes ".data 0
      rfl).2.2.1
  · exact (unknown_event_asymmetry [] "x".data "p".data " yes ".data 0
      rfl).2.2.2

theorem mem_dictSet {α : Type} (l : List (Str × α)) (k : Str) (v : α) :
    ∀ x ∈ dictSet l k v, x = (k, v) ∨ x ∈ l := by
  induction l with
  | nil =>
      intro x hx
      simp [dictSet] at hx
      exact Or.inl hx
  | cons kv rest ih =>
      obtain ⟨k', v'⟩ := kv
      intro x hx
      by_cases h : k' = k
      · rw [dictSet, if_pos h] at hx
        rcases List.mem_cons.mp hx with hx1 | hx1
        · exact Or.inl hx1
        · exact Or.inr (List.mem_cons_of_mem _ hx1)
      · rw [dictSet, if_neg h] at hx
        rcases List.mem_cons.mp hx with hx1 | hx1
        · refine Or.inr ?_
          rw [hx1]
          exact List.mem_cons_self _ _
        · rcases ih x hx1 with h1 | h1
          · exact Or.inl h1
          · exact Or.inr (List.mem_cons_of_mem _ h1)

theorem listEventsLines_isSome (st : EventStore) (now : Nat)
    (h : ∀ kv ∈ st, (dateparse kv.2.datetime).isSome) :
    (listEventsLines st now).isSome := by
  induction st with
  | nil => simp [listEventsLines]
  | cons kv rest ih =>
      obtain ⟨k, e⟩ := kv
      have h1 : (dateparse e.datetime).isSome :=
        h (k, e) (List.mem_cons_self _ _)
      obtain ⟨dt, hdt⟩ := Option.isSome_iff_exists.mp h1
      have h2 := ih (fun kv hkv => h kv (List.mem_cons_of_mem _ hkv))
      obtain ⟨ls, hls⟩ := Option.isSome_iff_exists.mp h2
      rw [listEventsLines, hdt, hls]
      rfl

/-- C10: `create_event` stores the `datetime` field as the ISO rendering of
the parsed timestamp, so the stored field always re-parses; consequently,
for stores whose events all came through this interface (all datetimes
re-parse), `list_events` and `event_details` never hit their parse step's
failure case, and no event in such a store can trigger the scheduler's
per-event parse-error branch. -/
theorem create_event_datetime_roundtrip (st : EventStore)
    (eid creator title dtstr loc : Str) (desc : Option Str)
    (att : Option (List Str)) (dt : Nat) (h : dateparse dtstr = some dt) :
    Option.map (fun e => dateparse e.datetime)
      (dictGet (create_event st eid creator title dtstr loc desc att).2
        eid) = some (some dt) ∧
    ((∀ kv ∈ st, (dateparse kv.2.datetime).isSome) →
      ∀ kv ∈ (create_event st eid creator title dtstr loc desc att).2,
        (dateparse kv.2.datetime).isSome) ∧
    (∀ (st' : EventStore) (n : Nat),
      (∀ kv ∈ st', (dateparse kv.2.datetime).isSome) →
        (list_events st' n).isSome) ∧
    (∀ (st' : EventStore) (e : Str),
      (∀ kv ∈ st', (dateparse kv.2.datetime).isSome) →
        (event_details st' e).isSome) ∧
    (∀ (st' : EventStore),
      (∀ kv ∈ st', (dateparse kv.2.datetime).isSome) →
        st'.countP (fun kv => (dateparse kv.2.datetime).isNone) = 0) := by
  refine ⟨?_, ?_, ?_, ?_, ?_⟩
  · unfold create_event
    rw [h]
    have := dictGet_set_self st eid
      ({ id := eid, title := title, datetime := isoformat dt,
         location := loc, description := desc.getD [],
         creator := normalize_phone creator,
         attendees := (att.getD []).map normalize_phone,
         rsvps := [] } : Event)
    rw [this]
    exact congrArg some (dateparse_isoformat dt)
  · intro hall kv hkv
    unfold create_event at hkv
    rw [h] at hkv
    rcases mem_dictSet st eid _ kv hkv with h1 | h1
    · rw [h1]
      simp [dateparse_isoformat dt]
    · exact hall kv h1
  · intro st' n hall
    unfold list_events
    by_cases he : st'.isEmpty
    · rw [if_pos he]; rfl
    · rw [if_neg he]
      obtain ⟨ls, hls⟩ :=
        Option.isSome_iff_exists.mp (listEventsLines_isSome st' n hall)
      rw [hls]
      rfl
  · intro st' e hall
    unfold event_details
    cases hget : dictGet st' e with
    | none => rfl
    | some ev =>
        have hev : (dateparse ev.datetime).isSome := by
          induction st' with
          | nil => simp [dictGet] at hget
          | cons kv rest ih =>
              obtain ⟨k', v'⟩ := kv
              by_cases hk : k' = e
              · rw [dictGet, if_pos hk] at hget
                have := hall (k', v') (List.mem_cons_self _ _)
                rw [Option.some_inj.mp hget] at this
                exact this
              · rw [dictGet, if_neg hk] at hget
                exact ih (fun kv hkv => hall kv (List.mem_cons_of_mem _ hkv))
                  hget
        obtain ⟨dt', hdt'⟩ := Option.isSome_iff_exists.mp hev
        show (Option.map (detailsText e ev) (dateparse ev.datetime)).isSome =
          true
        rw [hdt']
        rfl
  · intro st' hall
    rw [List.countP_eq_zero]
    intro kv hkv
    have := hall kv hkv
    simp only [Option.isNone_iff_eq_none, decide_eq_true_eq]
    intro hnone
    rw [hnone] at this
    exact Bool.noConfusion this

/-- Witness for `create_event_datetime_roundtrip`. -/
theorem create_event_datetime_roundtrip_witness :
    Option.map (fun e => dateparse e.datetime)
      (dictGet (create_event [] "e1".data "+1".data "T".data "72".data []
        none none).2 "e1".data) = some (some 72) :=
  (create_event_datetime_roundtrip [] "e1".data "+1".data "T".data
    "72".data [] none none 72 (by decide)).1

/- ### Scheduler invariants -/

/-- How often a state has dispatched to the pair `p`. -/
def cnt (p : Str × Str) (s : TickState) : Nat := (pairsSent s).count p

/-- The key behavioural invariant of one scheduler processing step: a pair
already in the ledger is never dispatched to again and stays in the ledger;
a pair not yet in the ledger is dispatched to at most once, and exactly
when it enters the ledger. -/
def GoodStep (f : TickState → TickState) : Prop :=
  ∀ s p,
    (p ∈ s.ledger → p ∈ (f s).ledger ∧ cnt p (f s) = cnt p s) ∧
    (p ∉ s.ledger →
      (cnt p (f s) = cnt p s ∧ p ∉ (f s).ledger) ∨
      (cnt p (f s) = cnt p s + 1 ∧ p ∈ (f s).ledger))

theorem goodStep_of_eq (f : TickState → TickState) (h : ∀ s, f s = s) :
    GoodStep f := by
  intro s p
  rw [h s]
  exact ⟨fun hp => ⟨hp, rfl⟩, fun hp => Or.inl ⟨rfl, hp⟩⟩

theorem goodStep_comp (f g : TickState → TickState) (hf : GoodStep f)
    (hg : GoodStep g) : GoodStep (fun s => g (f s)) := by
  intro s p
  constructor
  · intro hp
    obtain ⟨h1, h2⟩ := (hf s p).1 hp
    obtain ⟨h3, h4⟩ := (hg (f s) p).1 h1
    exact ⟨h3, by rw [h4, h2]⟩
  · intro hp
    rcases (hf s p).2 hp with ⟨h1, h2⟩ | ⟨h1, h2⟩
    · rcases (hg (f s) p).2 h2 with ⟨h3, h4⟩ | ⟨h3, h4⟩
      · exact Or.inl ⟨by rw [h3, h1], h4⟩
      · exact Or.inr ⟨by rw [h3, h1], h4⟩
    · obtain ⟨h3, h4⟩ := (hg (f s) p).1 h2
      exact Or.inr ⟨by rw [h4, h1], h3⟩

theorem goodStep_foldl {α : Type} (step : α → TickState → TickState)
    (l : List α) (h : ∀ a ∈ l, GoodStep (step a)) :
    GoodStep (fun s => l.foldl (fun s a => step a s) s) := by
  induction l with
  | nil => exact goodStep_of_eq _ (fun s => rfl)
  | cons a rest ih =>
      have hcomp := goodStep_comp (step a)
        (fun s => rest.foldl (fun s a => step a s) s)
        (h a (List.mem_cons_self _ _))
        (ih fun b hb => h b (List.mem_cons_of_mem _ hb))
      intro s p
      simpa using hcomp s p

theorem pairsSent_append_call (s : TickState) (q : Str × Str)
    (r : SendResult) :
    pairsSent ⟨q :: s.ledger, s.calls ++ [(q, r)]⟩ =
      pairsSent s ++ [q] := by
  simp [pairsSent]

theorem goodStep_guestStep (cfg : Bool) (gw : Gateway)
    (eid title : Str) (dt : Nat) (phone : Str) (info : RsvpInfo) :
    GoodStep (guestStep cfg gw eid title dt phone info) := by
  intro s p
  simp only [guestStep]
  by_cases hyes : pyUpper info.response = "YES".data
  · rw [if_pos hyes]
    by_cases hmem : (eid, normalize_phone phone) ∈ s.ledger
    · rw [if_pos hmem]
      exact ⟨fun hp => ⟨hp, rfl⟩, fun hp => Or.inl ⟨rfl, hp⟩⟩
    · rw [if_neg hmem]
      have hpcnt : ∀ q : Str × Str,
          cnt q ⟨(eid, normalize_phone phone) :: s.ledger,
            s.calls ++ [((eid, normalize_phone phone),
              send_whatsapp_message cfg gw (normalize_phone phone)
                (reminderMsg title dt))]⟩ =
          cnt q s +
            if q = (eid, normalize_phone phone) then 1 else 0 := by
        intro q
        unfold cnt
        rw [pairsSent_append_call s (eid, normalize_phone phone)]
        by_cases hq : q = (eid, normalize_phone phone)
        · simp [List.count_append, List.count_cons, hq]
        · simp [List.count_append, List.count_cons, hq, Ne.symm hq]
      constructor
      · intro hp
        have hne : p ≠ (eid, normalize_phone phone) := by
          intro he
          exact hmem (he ▸ hp)
        refine ⟨List.mem_cons_of_mem _ hp, ?_⟩
        rw [hpcnt p, if_neg hne]
        exact Nat.add_zero _
      · intro hp
        by_cases he : p = (eid, normalize_phone phone)
        · refine Or.inr ⟨?_, ?_⟩
          · rw [hpcnt p, if_pos he]
          · rw [he]
            exact List.mem_cons_self _ _
        · refine Or.inl ⟨?_, ?_⟩
          · rw [hpcnt p, if_neg he]
            exact Nat.add_zero _
          · intro hin
            rcases List.mem_cons.mp hin with h1 | h1
            · exact he h1
            · exact hp h1
  · rw [if_neg hyes]
    exact ⟨fun hp => ⟨hp, rfl⟩, fun hp => Or.inl ⟨rfl, hp⟩⟩

theorem goodStep_processGuests (cfg : Bool) (gw : Gateway)
    (eid title : Str) (dt : Nat) (rsvps : List (Str × RsvpInfo)) :
    GoodStep (processGuests cfg gw eid title dt rsvps) := by
  intro s p
  exact goodStep_foldl (fun kv => guestStep cfg gw eid title dt kv.1 kv.2)
    rsvps (fun kv _ => goodStep_guestStep cfg gw eid title dt kv.1 kv.2) s p

theorem goodStep_processEvent (cfg : Bool) (gw : Gateway) (now : Nat)
    (kv : Str × Event) : GoodStep (processEvent cfg gw now kv) := by
  intro s p
  unfold processEvent
  split
  · exact ⟨fun hp => ⟨hp, rfl⟩, fun hp => Or.inl ⟨rfl, hp⟩⟩
  · split
    · exact goodStep_processGuests cfg gw kv.1 kv.2.title _ kv.2.rsvps s p
    · exact ⟨fun hp => ⟨hp, rfl⟩, fun hp => Or.inl ⟨rfl, hp⟩⟩

theorem goodStep_tick (cfg : Bool) (gw : Gateway) (st : EventStore)
    (now : Nat) : GoodStep (reminder_tick cfg gw st now) := by
  intro s p
  exact goodStep_foldl (fun kv => processEvent cfg gw now kv) st
    (fun kv _ => goodStep_processEvent cfg gw now kv) s p

theorem goodStep_run (cfg : Bool) (gw : Gateway) (st : EventStore)
    (nows : List Nat) : GoodStep (reminder_run cfg gw st nows) := by
  intro s p
  exact goodStep_foldl (fun n => reminder_tick cfg gw st n) nows
    (fun n _ => goodStep_tick cfg gw st n) s p

/- ### Ticks that cannot touch a pair -/

/-- `f` neither dispatches to `p` nor adds `p` to the ledger. -/
def UntouchedBy (f : TickState → TickState) (p : Str × Str) : Prop :=
  ∀ s, p ∉ s.ledger → cnt p (f s) = cnt p s ∧ p ∉ (f s).ledger

theorem untouchedBy_of_eq (f : TickState → TickState) (p : Str × Str)
    (h : ∀ s, f s = s) : UntouchedBy f p := by
  intro s hp
  rw [h s]
  exact ⟨rfl, hp⟩

theorem untouchedBy_foldl {α : Type} (step : α → TickState → TickState)
    (p : Str × Str) (l : List α)
    (h : ∀ a ∈ l, UntouchedBy (step a) p) :
    UntouchedBy (fun s => l.foldl (fun s a => step a s) s) p := by
  induction l with
  | nil => exact untouchedBy_of_eq _ p (fun s => rfl)
  | cons a rest ih =>
      intro s hp
      simp only [List.foldl_cons]
      obtain ⟨h1, h2⟩ := h a (List.mem_cons_self _ _) s hp
      obtain ⟨h3, h4⟩ :=
        ih (fun b hb => h b (List.mem_cons_of_mem _ hb)) (step a s) h2
      exact ⟨by rw [h3, h1], h4⟩

theorem untouchedBy_guestStep (cfg : Bool) (gw : Gateway)
    (eid title : Str) (dt : Nat) (phone : Str) (info : RsvpInfo)
    (p : Str × Str) (hne : p.1 ≠ eid) :
    UntouchedBy (guestStep cfg gw eid title dt phone info) p := by
  intro s hp
  simp only [guestStep]
  by_cases hyes : pyUpper info.response = "YES".data
  · rw [if_pos hyes]
    by_cases hmem : (eid, normalize_phone phone) ∈ s.ledger
    · rw [if_pos hmem]
      exact ⟨rfl, hp⟩
    · rw [if_neg hmem]
      have hpq : p ≠ (eid, normalize_phone phone) := by
        intro he
        exact hne (congrArg Prod.fst he)
      constructor
      · unfold cnt
        rw [pairsSent_append_call s (eid, normalize_phone phone)]
        simp [List.count_append, List.count_cons, Ne.symm hpq]
      · intro hin
        rcases List.mem_cons.mp hin with h1 | h1
        · exact hpq h1
        · exact hp h1
  · rw [if_neg hyes]
    exact ⟨rfl, hp⟩

theorem untouchedBy_processEvent_ne (cfg : Bool) (gw : Gateway) (now : Nat)
    (kv : Str × Event) (p : Str × Str) (hne : p.1 ≠ kv.1) :
    UntouchedBy (processEvent cfg gw now kv) p := by
  intro s hp
  unfold processEvent
  split
  · exact ⟨rfl, hp⟩
  · split
    · exact untouchedBy_foldl
        (fun kv' => guestStep cfg gw kv.1 kv.2.title _ kv'.1 kv'.2) p
        kv.2.rsvps
        (fun kv' _ => untouchedBy_guestStep cfg gw kv.1 kv.2.title _
          kv'.1 kv'.2 p hne) s hp
    · exact ⟨rfl, hp⟩

theorem processEvent_eq_of_skip (cfg : Bool) (gw : Gateway) (now : Nat)
    (kv : Str × Event) (s : TickState)
    (h : ∀ dt, dateparse kv.2.datetime = some dt →
      ¬(now + 55 ≤ dt ∧ dt ≤ now + 65)) :
    processEvent cfg gw now kv s = s := by
  unfold processEvent
  split
  · rfl
  · rename_i dt hdt
    rw [if_neg (h dt hdt)]

/-- Two entries of a store with `Nodup` keys that carry the same key are
the same entry. -/
theorem nodup_keys_eq {α : Type} (l : List (Str × α))
    (h : (l.map Prod.fst).Nodup) (k : Str) (a b : α)
    (h1 : (k, a) ∈ l) (h2 : (k, b) ∈ l) : a = b := by
  induction l with
  | nil => cases h1
  | cons kv rest ih =>
      rw [List.map_cons, List.nodup_cons] at h
      rcases List.mem_cons.mp h1 with e1 | m1
      · rcases List.mem_cons.mp h2 with e2 | m2
        · rw [← e1] at e2
          exact (Prod.mk.injEq _ _ _ _ ▸ e2).2.symm
        · exfalso
          apply h.1
          have hm : k ∈ List.map Prod.fst rest :=
            List.mem_map_of_mem Prod.fst m2
          rw [← e1]
          exact hm
      · rcases List.mem_cons.mp h2 with e2 | m2
        · exfalso
          apply h.1
          have hm : k ∈ List.map Prod.fst rest :=
            List.mem_map_of_mem Prod.fst m1
          rw [← e2]
          exact hm
        · exact ih h.2 m1 m2

/-- A tick whose clock puts the event outside the reminder window cannot
touch any pair of that event (given unique store keys). -/
theorem untouchedBy_tick_notwin (cfg : Bool) (gw : Gateway)
    (st : EventStore) (now : Nat) (eid c : Str) (ev : Event) (dt : Nat)
    (hkeys : (st.map Prod.fst).Nodup) (hev : (eid, ev) ∈ st)
    (hdt : dateparse ev.datetime = some dt)
    (hw : ¬(now + 55 ≤ dt ∧ dt ≤ now + 65)) :
    UntouchedBy (reminder_tick cfg gw st now) (eid, c) := by
  intro s hp
  refine untouchedBy_foldl (fun kv => processEvent cfg gw now kv)
    (eid, c) st ?_ s hp
  intro kv hkv
  by_cases hk : kv.1 = eid
  · have hkv' : (eid, kv.2) ∈ st := by
      rw [← hk]
      exact hkv
    have : kv.2 = ev := nodup_keys_eq st hkeys eid kv.2 ev hkv' hev
    refine untouchedBy_of_eq _ _ (fun s' => ?_)
    refine processEvent_eq_of_skip cfg gw now kv s' ?_
    intro dt' hdt'
    rw [this, hdt] at hdt'
    rw [← Option.some_inj.mp hdt']
    exact hw
  · exact untouchedBy_processEvent_ne cfg gw now kv (eid, c) (Ne.symm hk)

/- ### Reaching the ledger -/

theorem guestStep_ledger_mono (cfg : Bool) (gw : Gateway)
    (eid title : Str) (dt : Nat) (phone : Str) (info : RsvpInfo)
    (s : TickState) (q : Str × Str) (hq : q ∈ s.ledger) :
    q ∈ (guestStep cfg gw eid title dt phone info s).ledger :=
  ((goodStep_guestStep cfg gw eid title dt phone info s q).1 hq).1

theorem processEvent_ledger_mono (cfg : Bool) (gw : Gateway) (now : Nat)
    (kv : Str × Event) (s : TickState) (q : Str × Str)
    (hq : q ∈ s.ledger) : q ∈ (processEvent cfg gw now kv s).ledger :=
  ((goodStep_processEvent cfg gw now kv s q).1 hq).1

theorem foldl_ledger_mono {α : Type} (step : α → TickState → TickState)
    (l : List α)
    (hmono : ∀ a ∈ l, ∀ s q, q ∈ s.ledger → q ∈ (step a s).ledger) :
    ∀ s q, q ∈ s.ledger → q ∈ (l.foldl (fun s a => step a s) s).ledger := by
  induction l with
  | nil => exact fun s q hq => hq
  | cons a rest ih =>
      intro s q hq
      rw [List.foldl_cons]
      exact ih (fun b hb => hmono b (List.mem_cons_of_mem _ hb)) _ q
        (hmono a (List.mem_cons_self _ _) s q hq)

theorem foldl_ledger_reach {α : Type} (step : α → TickState → TickState)
    (l : List α) (x : α) (p : Str × Str) (hx : x ∈ l)
    (hmono : ∀ a ∈ l, ∀ s q, q ∈ s.ledger → q ∈ (step a s).ledger)
    (hest : ∀ s, p ∈ (step x s).ledger) :
    ∀ s, p ∈ (l.foldl (fun s a => step a s) s).ledger := by
  induction l with
  | nil => cases hx
  | cons a rest ih =>
      intro s
      rw [List.foldl_cons]
      rcases List.mem_cons.mp hx with rfl | hx'
      · exact foldl_ledger_mono step rest
          (fun b hb => hmono b (List.mem_cons_of_mem _ hb)) _ p (hest s)
      · exact ih hx' (fun b hb => hmono b (List.mem_cons_of_mem _ hb))
          (step a s)

theorem guestStep_reach (cfg : Bool) (gw : Gateway) (eid title : Str)
    (dt : Nat) (phone : Str) (info : RsvpInfo)
    (hyes : pyUpper info.response = "YES".data) (s : TickState) :
    (eid, normalize_phone phone) ∈
      (guestStep cfg gw eid title dt phone info s).ledger := by
  simp only [guestStep]
  rw [if_pos hyes]
  by_cases hmem : (eid, normalize_phone phone) ∈ s.ledger
  · rw [if_pos hmem]
    exact hmem
  · rw [if_neg hmem]
    exact List.mem_cons_self _ _

theorem processGuests_reach (cfg : Bool) (gw : Gateway) (eid title : Str)
    (dt : Nat) (rsvps : List (Str × RsvpInfo)) (phone : Str)
    (info : RsvpInfo) (hg : (phone, info) ∈ rsvps)
    (hyes : pyUpper info.response = "YES".data) (s : TickState) :
    (eid, normalize_phone phone) ∈
      (processGuests cfg gw eid title dt rsvps s).ledger := by
  refine foldl_ledger_reach
    (fun kv => guestStep cfg gw eid title dt kv.1 kv.2) rsvps
    (phone, info) (eid, normalize_phone phone) hg
    (fun kv _ s' q hq => guestStep_ledger_mono cfg gw eid title dt
      kv.1 kv.2 s' q hq)
    (fun s' => guestStep_reach cfg gw eid title dt phone info hyes s') s

theorem processEvent_reach (cfg : Bool) (gw : Gateway) (now : Nat)
    (eid : Str) (ev : Event) (dt : Nat) (phone : Str) (info : RsvpInfo)
    (hdt : dateparse ev.datetime = some dt)
    (hw : now + 55 ≤ dt ∧ dt ≤ now + 65)
    (hg : (phone, info) ∈ ev.rsvps)
    (hyes : pyUpper info.response = "YES".data) (s : TickState) :
    (eid, normalize_phone phone) ∈
      (processEvent cfg gw now (eid, ev) s).ledger := by
  unfold processEvent
  simp only [hdt]
  rw [if_pos hw]
  exact processGuests_reach cfg gw eid ev.title dt ev.rsvps phone info
    hg hyes s

theorem tick_reach (cfg : Bool) (gw : Gateway) (st : EventStore)
    (now : Nat) (eid : Str) (ev : Event) (dt : Nat) (phone : Str)
    (info : RsvpInfo) (hev : (eid, ev) ∈ st)
    (hdt : dateparse ev.datetime = some dt)
    (hw : now + 55 ≤ dt ∧ dt ≤ now + 65)
    (hg : (phone, info) ∈ ev.rsvps)
    (hyes : pyUpper info.response = "YES".data) (s : TickState) :
    (eid, normalize_phone phone) ∈
      (reminder_tick cfg gw st now s).ledger := by
  refine foldl_ledger_reach (fun kv => processEvent cfg gw now kv) st
    (eid, ev) (eid, normalize_phone phone) hev
    (fun kv _ s' q hq => processEvent_ledger_mono cfg gw now kv s' q hq)
    (fun s' => processEvent_reach cfg gw now eid ev dt phone info hdt hw
      hg hyes s') s

theorem reminder_run_append (cfg : Bool) (gw : Gateway) (st : EventStore)
    (l1 l2 : List Nat) (s : TickState) :
    reminder_run cfg gw st (l1 ++ l2) s =
      reminder_run cfg gw st l2 (reminder_run cfg gw st l1 s) := by
  unfold reminder_run
  rw [List.foldl_append]

/-- C1: across any tick sequence a pair is dispatched to at most once:
zero times on the ticks before the event's start enters the reminder
window, exactly once on the first in-window tick (for a `YES` guest whose
pair is not yet in the ledger), and never again on any later tick, the
ledger entry being permanent. -/
theorem reminder_dispatched_at_most_once (cfg : Bool) (gw : Gateway)
    (st : EventStore) (ledger0 : List (Str × Str)) (pre post : List Nat)
    (n0 : Nat) (eid : Str) (ev : Event) (dt : Nat) (phone : Str)
    (info : RsvpInfo)
    (hkeys : (st.map Prod.fst).Nodup)
    (hev : (eid, ev) ∈ st)
    (hdt : dateparse ev.datetime = some dt)
    (hg : (phone, info) ∈ ev.rsvps)
    (hyes : pyUpper info.response = "YES".data)
    (hfresh : (eid, normalize_phone phone) ∉ ledger0)
    (hpre : ∀ n ∈ pre, ¬(n + 55 ≤ dt ∧ dt ≤ n + 65))
    (hn0 : n0 + 55 ≤ dt ∧ dt ≤ n0 + 65) :
    cnt (eid, normalize_phone phone)
      (reminder_run cfg gw st pre ⟨ledger0, []⟩) = 0 ∧
    cnt (eid, normalize_phone phone)
      (reminder_run cfg gw st (pre ++ [n0]) ⟨ledger0, []⟩) = 1 ∧
    cnt (eid, normalize_phone phone)
      (reminder_run cfg gw st (pre ++ n0 :: post) ⟨ledger0, []⟩) = 1 := by
  set p : Str × Str := (eid, normalize_phone phone) with hp
  set s0 : TickState := ⟨ledger0, []⟩ with hs0
  have hcnt0 : cnt p s0 = 0 := rfl
  have huntouched : UntouchedBy (reminder_run cfg gw st pre) p := by
    intro s hps
    refine untouchedBy_foldl (fun n => reminder_tick cfg gw st n) p pre
      ?_ s hps
    intro n hn
    exact untouchedBy_tick_notwin cfg gw st n eid (normalize_phone phone)
      ev dt hkeys hev hdt (hpre n hn)
  obtain ⟨hA1, hA2⟩ := huntouched s0 hfresh
  rw [hcnt0] at hA1
  set A := reminder_run cfg gw st pre s0 with hAdef
  -- the first in-window tick
  have hBeq : reminder_run cfg gw st (pre ++ [n0]) s0 =
      reminder_tick cfg gw st n0 A := by
    rw [reminder_run_append]
    rfl
  set B := reminder_tick cfg gw st n0 A with hBdef
  have hreach : p ∈ B.ledger :=
    tick_reach cfg gw st n0 eid ev dt phone info hev hdt hn0 hg hyes A
  have hB : cnt p B = 1 ∧ p ∈ B.ledger := by
    rcases (goodStep_tick cfg gw st n0 A p).2 hA2 with ⟨h1, h2⟩ | ⟨h1, h2⟩
    · exact absurd hreach h2
    · exact ⟨by rw [h1, hA1], h2⟩
  -- all later ticks
  have hCeq : reminder_run cfg gw st (pre ++ n0 :: post) s0 =
      reminder_run cfg gw st post B := by
    rw [reminder_run_append]
    unfold reminder_run
    rw [List.foldl_cons]
    rfl
  have hC : cnt p (reminder_run cfg gw st post B) = cnt p B :=
    ((goodStep_run cfg gw st post B p).1 hB.2).2
  refine ⟨hA1, ?_, ?_⟩
  · rw [hBeq]
    exact hB.1
  · rw [hCeq, hC]
    exact hB.1

/-- Witness for `reminder_dispatched_at_most_once`: event `e` starts at
minute 60 with one `YES` guest, event `b` at minute 180; a tick at 200
(outside the window) dispatches nothing, the tick at 0 dispatches once,
and repeated ticks at 0 and 3 add nothing. -/
theorem reminder_dispatched_at_most_once_witness :
    cnt ("e".data, normalize_phone "+1".data)
      (reminder_run true (fun _ _ => TwilioResult.success "S".data)
        [("e".data, ⟨"e".data, "T".data, isoformat 60, [], [],
            "whatsapp:+9".data, [], [("+1".data, ⟨"YES".data, "0".data⟩)]⟩),
         ("b".data, ⟨"b".data, "U".data, isoformat 180, [], [],
            "whatsapp:+9".data, [], []⟩)]
        [200] ⟨[], []⟩) = 0 ∧
    cnt ("e".data, normalize_phone "+1".data)
      (reminder_run true (fun _ _ => TwilioResult.success "S".data)
        [("e".data, ⟨"e".data, "T".data, isoformat 60, [], [],
            "whatsapp:+9".data, [], [("+1".data, ⟨"YES".data, "0".data⟩)]⟩),
         ("b".data, ⟨"b".data, "U".data, isoformat 180, [], [],
            "whatsapp:+9".data, [], []⟩)]
        ([200] ++ [0]) ⟨[], []⟩) = 1 ∧
    cnt ("e".data, normalize_phone "+1".data)
      (reminder_run true (fun _ _ => TwilioResult.success "S".data)
        [("e".data, ⟨"e".data, "T".data, isoformat 60, [], [],
            "whatsapp:+9".data, [], [("+1".data, ⟨"YES".data, "0".data⟩)]⟩),
         ("b".data, ⟨"b".data, "U".data, isoformat 180, [], [],
            "whatsapp:+9".data, [], []⟩)]
        ([200] ++ 0 :: [0, 3]) ⟨[], []⟩) = 1 :=
  reminder_dispatched_at_most_once true
    (fun _ _ => TwilioResult.success "S".data)
    [("e".data, ⟨"e".data, "T".data, isoformat 60, [], [],
        "whatsapp:+9".data, [], [("+1".data, ⟨"YES".data, "0".data⟩)]⟩),
     ("b".data, ⟨"b".data, "U".data, isoformat 180, [], [],
        "whatsapp:+9".data, [], []⟩)]
    [] [200] [0, 3] 0 "e".data _ 60 "+1".data ⟨"YES".data, "0".data⟩
    (by decide) (List.mem_cons_self _ _) (dateparse_isoformat 60)
    (List.mem_cons_self _ _) (by decide) (List.not_mem_nil _)
    (by decide) (by decide)

/- ### What a tick's dispatches can be -/

theorem sent_sound_foldl {α : Type} (step : α → TickState → TickState)
    (R : α → (Str × Str) → Prop) (l : List α)
    (h : ∀ a ∈ l, ∀ s q, q ∈ pairsSent (step a s) →
      q ∈ pairsSent s ∨ R a q) :
    ∀ s q, q ∈ pairsSent (l.foldl (fun s a => step a s) s) →
      q ∈ pairsSent s ∨ ∃ a ∈ l, R a q := by
  induction l with
  | nil => exact fun s q hq => Or.inl hq
  | cons a rest ih =>
      intro s q hq
      rw [List.foldl_cons] at hq
      rcases ih (fun b hb => h b (List.mem_cons_of_mem _ hb)) (step a s)
          q hq with h1 | ⟨b, hb, h1⟩
      · rcases h a (List.mem_cons_self _ _) s q h1 with h2 | h2
        · exact Or.inl h2
        · exact Or.inr ⟨a, List.mem_cons_self _ _, h2⟩
      · exact Or.inr ⟨b, List.mem_cons_of_mem _ hb, h1⟩

theorem sent_sound_guestStep (cfg : Bool) (gw : Gateway)
    (eid title : Str) (dt : Nat) (phone : Str) (info : RsvpInfo)
    (s : TickState) (q : Str × Str)
    (hq : q ∈ pairsSent (guestStep cfg gw eid title dt phone info s)) :
    q ∈ pairsSent s ∨
      (pyUpper info.response = "YES".data ∧
        q = (eid, normalize_phone phone)) := by
  revert hq
  simp only [guestStep]
  by_cases hyes : pyUpper info.response = "YES".data
  · rw [if_pos hyes]
    by_cases hmem : (eid, normalize_phone phone) ∈ s.ledger
    · rw [if_pos hmem]
      exact Or.inl
    · rw [if_neg hmem]
      intro hq
      rw [pairsSent_append_call s (eid, normalize_phone phone)] at hq
      rcases List.mem_append.mp hq with h1 | h1
      · exact Or.inl h1
      · rcases List.mem_singleton.mp h1 with rfl
        exact Or.inr ⟨hyes, rfl⟩
  · rw [if_neg hyes]
    exact Or.inl

theorem sent_sound_processEvent (cfg : Bool) (gw : Gateway) (now : Nat)
    (kv : Str × Event) (s : TickState) (q : Str × Str)
    (hq : q ∈ pairsSent (processEvent cfg gw now kv s)) :
    q ∈ pairsSent s ∨
      ∃ dt, dateparse kv.2.datetime = some dt ∧
        now + 55 ≤ dt ∧ dt ≤ now + 65 ∧
        ∃ g ∈ kv.2.rsvps, pyUpper g.2.response = "YES".data ∧
          q = (kv.1, normalize_phone g.1) := by
  revert hq
  unfold processEvent
  split
  · exact Or.inl
  · rename_i dt hdt
    split
    · rename_i hw
      intro hq
      unfold processGuests at hq
      rcases sent_sound_foldl
          (fun g => guestStep cfg gw kv.1 kv.2.title dt g.1 g.2)
          (fun g q => pyUpper g.2.response = "YES".data ∧
            q = (kv.1, normalize_phone g.1))
          kv.2.rsvps
          (fun g _ s' q' hq' => sent_sound_guestStep cfg gw kv.1
            kv.2.title dt g.1 g.2 s' q' hq')
          s q hq with h1 | ⟨g, hg, h1⟩
      · exact Or.inl h1
      · exact Or.inr ⟨dt, hdt, hw.1, hw.2, g, hg, h1⟩
    · exact Or.inl

theorem sent_sound_tick (cfg : Bool) (gw : Gateway) (st : EventStore)
    (now : Nat) (s : TickState) (q : Str × Str)
    (hq : q ∈ pairsSent (reminder_tick cfg gw st now s)) :
    q ∈ pairsSent s ∨
      ∃ kv ∈ st, ∃ dt, dateparse kv.2.datetime = some dt ∧
        now + 55 ≤ dt ∧ dt ≤ now + 65 ∧
        ∃ g ∈ kv.2.rsvps, pyUpper g.2.response = "YES".data ∧
          q = (kv.1, normalize_phone g.1) :=
  sent_sound_foldl (fun kv => processEvent cfg gw now kv)
    (fun kv q => ∃ dt, dateparse kv.2.datetime = some dt ∧
      now + 55 ≤ dt ∧ dt ≤ now + 65 ∧
      ∃ g ∈ kv.2.rsvps, pyUpper g.2.response = "YES".data ∧
        q = (kv.1, normalize_phone g.1))
    st
    (fun kv _ s' q' hq' => sent_sound_processEvent cfg gw now kv s' q' hq')
    s q hq

/-- C2: a tick at clock `now` dispatches a reminder exactly for the
in-window events' `YES` guests: every dispatch of the tick belongs to an
event whose parsed start lies in `[now+55, now+65]` and to a guest whose
uppercased response is `YES` (so an out-of-window event, or an in-window
event with no `YES` RSVPs, contributes no dispatch); conversely every such
guest not yet in the ledger is dispatched to. -/
theorem tick_dispatch_window_yes (cfg : Bool) (gw : Gateway)
    (st : EventStore) (now : Nat) (L : List (Str × Str)) :
    (∀ q ∈ pairsSent (reminder_tick cfg gw st now ⟨L, []⟩),
      ∃ ev, (q.1, ev) ∈ st ∧
        ∃ dt, dateparse ev.datetime = some dt ∧
          now + 55 ≤ dt ∧ dt ≤ now + 65 ∧
          ∃ phone info, (phone, info) ∈ ev.rsvps ∧
            pyUpper info.response = "YES".data ∧
            q.2 = normalize_phone phone) ∧
    (∀ (eid : Str) (ev : Event) (dt : Nat) (phone : Str)
        (info : RsvpInfo), (eid, ev) ∈ st →
      dateparse ev.datetime = some dt →
      now + 55 ≤ dt → dt ≤ now + 65 →
      (phone, info) ∈ ev.rsvps → pyUpper info.response = "YES".data →
      (eid, normalize_phone phone) ∉ L →
      (eid, normalize_phone phone) ∈
        pairsSent (reminder_tick cfg gw st now ⟨L, []⟩)) := by
  constructor
  · intro q hq
    rcases sent_sound_tick cfg gw st now ⟨L, []⟩ q hq with h1 | h1
    · cases h1
    · obtain ⟨kv, hkv, dt, hdt, hw1, hw2, g, hg, hyes, hq'⟩ := h1
      refine ⟨kv.2, ?_, dt, hdt, hw1, hw2, g.1, g.2, hg, hyes, ?_⟩
      · rw [hq']
        exact hkv
      · rw [hq']
  · intro eid ev dt phone info hev hdt hw1 hw2 hg hyes hfresh
    have hreach : (eid, normalize_phone phone) ∈
        (reminder_tick cfg gw st now ⟨L, []⟩).ledger :=
      tick_reach cfg gw st now eid ev dt phone info hev hdt ⟨hw1, hw2⟩
        hg hyes ⟨L, []⟩
    rcases (goodStep_tick cfg gw st now ⟨L, []⟩
        (eid, normalize_phone phone)).2 hfresh with ⟨h1, h2⟩ | ⟨h1, h2⟩
    · exact absurd hreach h2
    · have hpos : 0 < cnt (eid, normalize_phone phone)
          (reminder_tick cfg gw st now ⟨L, []⟩) := by
        rw [h1]
        exact Nat.succ_pos _
      exact List.count_pos_iff.mp hpos

/-- Witness for `tick_dispatch_window_yes`: with event `e` at minute 60
and event `b` at minute 180, the tick at clock 0 dispatches to the `YES`
guest of `e`. -/
theorem tick_dispatch_window_yes_witness :
    ("e".data, normalize_phone "+1".data) ∈
      pairsSent (reminder_tick true
        (fun _ _ => TwilioResult.success "Z".data)
        [("e".data, ⟨"e".data, "T".data, isoformat 60, [], [],
            "whatsapp:+9".data, [], [("+1".data, ⟨"YES".data, "0".data⟩)]⟩),
         ("b".data, ⟨"b".data, "U".data, isoformat 180, [], [],
            "whatsapp:+9".data, [], []⟩)]
        0 ⟨[], []⟩) :=
  (tick_dispatch_window_yes true
    (fun _ _ => TwilioResult.success "Z".data)
    [("e".data, ⟨"e".data, "T".data, isoformat 60, [], [],
        "whatsapp:+9".data, [], [("+1".data, ⟨"YES".data, "0".data⟩)]⟩),
     ("b".data, ⟨"b".data, "U".data, isoformat 180, [], [],
        "whatsapp:+9".data, [], []⟩)]
    0 []).2 "e".data _ 60 "+1".data ⟨"YES".data, "0".data⟩
    (List.mem_cons_self _ _) (dateparse_isoformat 60) (by decide)
    (by decide) (List.mem_cons_self _ _) (by decide) (List.not_mem_nil _)

/- ### Dispatch outcomes never influence the ledger -/

/-- Two scheduler states agreeing on everything except the recorded
gateway outcomes. -/
def SameObs (s1 s2 : TickState) : Prop :=
  s1.ledger = s2.ledger ∧ pairsSent s1 = pairsSent s2

theorem sameObs_guestStep (cfg1 cfg2 : Bool) (gw1 gw2 : Gateway)
    (eid title : Str) (dt : Nat) (phone : Str) (info : RsvpInfo)
    (s1 s2 : TickState) (h : SameObs s1 s2) :
    SameObs (guestStep cfg1 gw1 eid title dt phone info s1)
      (guestStep cfg2 gw2 eid title dt phone info s2) := by
  obtain ⟨hl, hp⟩ := h
  simp only [guestStep]
  by_cases hyes : pyUpper info.response = "YES".data
  · rw [if_pos hyes, if_pos hyes]
    by_cases hmem : (eid, normalize_phone phone) ∈ s1.ledger
    · rw [if_pos hmem, if_pos (hl ▸ hmem)]
      exact ⟨hl, hp⟩
    · rw [if_neg hmem, if_neg (hl ▸ hmem)]
      constructor
      · show (eid, normalize_phone phone) :: s1.ledger =
          (eid, normalize_phone phone) :: s2.ledger
        rw [hl]
      · rw [pairsSent_append_call s1 (eid, normalize_phone phone),
          pairsSent_append_call s2 (eid, normalize_phone phone), hp]
  · rw [if_neg hyes, if_neg hyes]
    exact ⟨hl, hp⟩

theorem sameObs_foldl {α : Type} (step1 step2 : α → TickState → TickState)
    (l : List α)
    (h : ∀ a ∈ l, ∀ s1 s2, SameObs s1 s2 →
      SameObs (step1 a s1) (step2 a s2)) :
    ∀ s1 s2, SameObs s1 s2 →
      SameObs (l.foldl (fun s a => step1 a s) s1)
        (l.foldl (fun s a => step2 a s) s2) := by
  induction l with
  | nil => exact fun s1 s2 hs => hs
  | cons a rest ih =>
      intro s1 s2 hs
      simp only [List.foldl_cons]
      exact ih (fun b hb => h b (List.mem_cons_of_mem _ hb)) _ _
        (h a (List.mem_cons_self _ _) s1 s2 hs)

theorem sameObs_processEvent (cfg1 cfg2 : Bool) (gw1 gw2 : Gateway)
    (now : Nat) (kv : Str × Event) (s1 s2 : TickState)
    (h : SameObs s1 s2) :
    SameObs (processEvent cfg1 gw1 now kv s1)
      (processEvent cfg2 gw2 now kv s2) := by
  unfold processEvent
  cases hdt : dateparse kv.2.datetime with
  | none => exact h
  | some dt =>
      by_cases hw : now + 55 ≤ dt ∧ dt ≤ now + 65
      · simp only [if_pos hw]
        unfold processGuests
        exact sameObs_foldl
          (fun g => guestStep cfg1 gw1 kv.1 kv.2.title dt g.1 g.2)
          (fun g => guestStep cfg2 gw2 kv.1 kv.2.title dt g.1 g.2)
          kv.2.rsvps
          (fun g _ t1 t2 ht => sameObs_guestStep cfg1 cfg2 gw1 gw2 kv.1
            kv.2.title dt g.1 g.2 t1 t2 ht) s1 s2 h
      · simp only [if_neg hw]
        exact h

theorem sameObs_tick (cfg1 cfg2 : Bool) (gw1 gw2 : Gateway)
    (st : EventStore) (now : Nat) (s1 s2 : TickState)
    (h : SameObs s1 s2) :
    SameObs (reminder_tick cfg1 gw1 st now s1)
      (reminder_tick cfg2 gw2 st now s2) := by
  unfold reminder_tick
  exact sameObs_foldl (fun kv => processEvent cfg1 gw1 now kv)
    (fun kv => processEvent cfg2 gw2 now kv) st
    (fun kv _ t1 t2 ht => sameObs_processEvent cfg1 cfg2 gw1 gw2 now kv
      t1 t2 ht) s1 s2 h

/- ### Every attempted pair ends up in the ledger -/

theorem foldl_preserve {α : Type} (step : α → TickState → TickState)
    (P : TickState → Prop) (l : List α)
    (h : ∀ a ∈ l, ∀ s, P s → P (step a s)) :
    ∀ s, P s → P (l.foldl (fun s a => step a s) s) := by
  induction l with
  | nil => exact fun s hs => hs
  | cons a rest ih =>
      intro s hs
      simp only [List.foldl_cons]
      exact ih (fun b hb => h b (List.mem_cons_of_mem _ hb)) _
        (h a (List.mem_cons_self _ _) s hs)

/-- The pairs dispatched to so far are all in the ledger. -/
def PairsLedger (s : TickState) : Prop :=
  ∀ q ∈ pairsSent s, q ∈ s.ledger

theorem pairsLedger_guestStep (cfg : Bool) (gw : Gateway)
    (eid title : Str) (dt : Nat) (phone : Str) (info : RsvpInfo)
    (s : TickState) (h : PairsLedger s) :
    PairsLedger (guestStep cfg gw eid title dt phone info s) := by
  simp only [PairsLedger, guestStep]
  by_cases hyes : pyUpper info.response = "YES".data
  · rw [if_pos hyes]
    by_cases hmem : (eid, normalize_phone phone) ∈ s.ledger
    · rw [if_pos hmem]
      exact h
    · rw [if_neg hmem]
      intro q hq
      rw [pairsSent_append_call s (eid, normalize_phone phone)] at hq
      rcases List.mem_append.mp hq with h1 | h1
      · exact List.mem_cons_of_mem _ (h q h1)
      · rcases List.mem_singleton.mp h1 with rfl
        exact List.mem_cons_self _ _
  · rw [if_neg hyes]
    exact h

theorem pairsLedger_processEvent (cfg : Bool) (gw : Gateway) (now : Nat)
    (kv : Str × Event) (s : TickState) (h : PairsLedger s) :
    PairsLedger (processEvent cfg gw now kv s) := by
  unfold processEvent
  split
  · exact h
  · split
    · unfold processGuests
      exact foldl_preserve
        (fun g => guestStep cfg gw kv.1 kv.2.title _ g.1 g.2) PairsLedger
        kv.2.rsvps
        (fun g _ t ht => pairsLedger_guestStep cfg gw kv.1 kv.2.title _
          g.1 g.2 t ht) s h
    · exact h

theorem pairsLedger_tick (cfg : Bool) (gw : Gateway) (st : EventStore)
    (now : Nat) (s : TickState) (h : PairsLedger s) :
    PairsLedger (reminder_tick cfg gw st now s) := by
  unfold reminder_tick
  exact foldl_preserve (fun kv => processEvent cfg gw now kv) PairsLedger
    st (fun kv _ t ht => pairsLedger_processEvent cfg gw now kv t ht) s h

theorem processEvent_eq_of_parse_none (cfg : Bool) (gw : Gateway)
    (now : Nat) (kv : Str × Event) (s : TickState)
    (h : dateparse kv.2.datetime = none) :
    processEvent cfg gw now kv s = s := by
  unfold processEvent
  rw [h]

/-- C3: a dispatch attempt is recorded in the ledger on any outcome — the
send converts every delivery error into a returned failure status
(`send_whatsapp_message` is total and maps a gateway failure to an
`"error"` result), the tick's ledger and dispatched pairs are identical
whatever the gateway does, every dispatched pair is in the final ledger —
and an event whose datetime fails to parse is skipped without aborting the
tick for the remaining events. -/
theorem dispatch_recorded_and_faults_isolated :
    (∀ (gw : Gateway) (dest body e : Str),
      gw (normalize_phone dest) body = .failure e →
        send_whatsapp_message true gw dest body = ⟨"error".data, e⟩) ∧
    (∀ (cfg1 cfg2 : Bool) (gw1 gw2 : Gateway) (st : EventStore)
        (now : Nat) (L : List (Str × Str)),
      (reminder_tick cfg1 gw1 st now ⟨L, []⟩).ledger =
        (reminder_tick cfg2 gw2 st now ⟨L, []⟩).ledger ∧
      pairsSent (reminder_tick cfg1 gw1 st now ⟨L, []⟩) =
        pairsSent (reminder_tick cfg2 gw2 st now ⟨L, []⟩)) ∧
    (∀ (cfg : Bool) (gw : Gateway) (st : EventStore) (now : Nat)
        (L : List (Str × Str)),
      ∀ q ∈ pairsSent (reminder_tick cfg gw st now ⟨L, []⟩),
        q ∈ (reminder_tick cfg gw st now ⟨L, []⟩).ledger) ∧
    (∀ (cfg : Bool) (gw : Gateway) (now : Nat) (s : TickState)
        (st1 st2 : EventStore) (bad : Str × Event),
      dateparse bad.2.datetime = none →
        reminder_tick cfg gw (st1 ++ bad :: st2) now s =
          reminder_tick cfg gw (st1 ++ st2) now s) := by
  refine ⟨?_, ?_, ?_, ?_⟩
  · intro gw dest body e h
    simp [send_whatsapp_message, h]
  · intro cfg1 cfg2 gw1 gw2 st now L
    exact sameObs_tick cfg1 cfg2 gw1 gw2 st now ⟨L, []⟩ ⟨L, []⟩ ⟨rfl, rfl⟩
  · intro cfg gw st now L
    exact pairsLedger_tick cfg gw st now ⟨L, []⟩
      (fun q hq => absurd hq (List.not_mem_nil q))
  · intro cfg gw now s st1 st2 bad h
    unfold reminder_tick
    rw [List.foldl_append, List.foldl_append, List.foldl_cons,
      processEvent_eq_of_parse_none cfg gw now bad _ h]

/-- Witness for `dispatch_recorded_and_faults_isolated`: a failing
gateway yields an `"error"` result; a tick over a store containing an
event with corrupt datetime equals the tick without it. -/
theorem dispatch_recorded_and_faults_isolated_witness :
    send_whatsapp_message true (fun _ _ => TwilioResult.failure "E".data)
      "+1".data "m".data = ⟨"error".data, "E".data⟩ ∧
    reminder_tick true (fun _ _ => TwilioResult.success "Z".data)
      ([] ++ ("x".data, ⟨"x".data, "B".data, "nodate".data, [], [],
        "w".data, [], []⟩) ::
        [("e".data, ⟨"e".data, "T".data, isoformat 60, [], [],
          "whatsapp:+9".data, [],
          [("+1".data, ⟨"YES".data, "0".data⟩)]⟩)]) 0 ⟨[], []⟩ =
    reminder_tick true (fun _ _ => TwilioResult.success "Z".data)
      ([] ++ [("e".data, ⟨"e".data, "T".data, isoformat 60, [], [],
        "whatsapp:+9".data, [],
        [("+1".data, ⟨"YES".data, "0".data⟩)]⟩)]) 0 ⟨[], []⟩ :=
  ⟨dispatch_recorded_and_faults_isolated.1
    (fun _ _ => TwilioResult.failure "E".data) "+1".data "m".data
    "E".data rfl,
   dispatch_recorded_and_faults_isolated.2.2.2 true
    (fun _ _ => TwilioResult.success "Z".data) 0 ⟨[], []⟩ []
    [("e".data, ⟨"e".data, "T".data, isoformat 60, [], [],
      "whatsapp:+9".data, [], [("+1".data, ⟨"YES".data, "0".data⟩)]⟩)]
    ("x".data, ⟨"x".data, "B".data, "nodate".data, [], [], "w".data,
      [], []⟩) (by decide)⟩

end EventPlanner
